import Mathlib

/-!
Verification development for the Daily-deal-bot news pipeline (`src/main.py`).

Strings from the Python source are modelled as `List Char` (ASCII; the
titles, links and configuration keywords of the program are ASCII).
Python `str` operations used by the code are embedded below:
`in` (substring test) as `containsSub`, `str.startswith`-style prefix test
as `startsWith`, `str.lower` as `Char.toLower` mapped over the list,
`str.strip` as `stripPy`, `str.split()` as `pyWords`, and `str.replace`
as `replaceAll`.
-/

/-- Python `\s` for the ASCII range: space, tab, newline, carriage return,
vertical tab, form feed (character codes 32, 9, 10, 13, 11, 12). -/
def isPySpace (c : Char) : Bool :=
  c == Char.ofNat 32 || c == Char.ofNat 9 || c == Char.ofNat 10 ||
  c == Char.ofNat 13 || c == Char.ofNat 11 || c == Char.ofNat 12

/-- ASCII `[a-zA-Z0-9]`, the character class kept by `clean_text`'s
`re.sub(r'[^a-zA-Z0-9\s]', '', ...)` (together with whitespace). -/
def isAsciiAlnum (c : Char) : Bool :=
  (97 ≤ c.toNat && c.toNat ≤ 122) || (65 ≤ c.toNat && c.toNat ≤ 90) ||
  (48 ≤ c.toNat && c.toNat ≤ 57)

/-- Boolean prefix test on character lists (`p` is a prefix of `l`). -/
def startsWith : List Char → List Char → Bool
  | [], _ => true
  | _ :: _, [] => false
  | a :: as, b :: bs => a == b && startsWith as bs

/-- Boolean contiguous-substring test: Python's `p in l` on strings. -/
def containsSub : List Char → List Char → Bool
  | p, [] => p.isEmpty
  | p, c :: t => startsWith p (c :: t) || containsSub p t

/-- Strip leading and trailing whitespace: Python `str.strip()`. -/
def stripPy (l : List Char) : List Char :=
  ((l.dropWhile isPySpace).reverse.dropWhile isPySpace).reverse

/-- The head part of `re.split(r'\s-\s', text)`: the longest prefix before
the first occurrence of whitespace, dash, whitespace. -/
def headBeforeDash : List Char → List Char
  | [] => []
  | c :: rest =>
    match rest with
    | d :: e :: _ =>
      if isPySpace c && d == Char.ofNat 45 && isPySpace e then []
      else c :: headBeforeDash rest
    | _ => c :: headBeforeDash rest

/-- Function `clean_text` from the source: take the part of the title before a
" - " separator, drop every character that is not ASCII alphanumeric or
whitespace, lowercase, and strip surrounding whitespace. -/
def clean_text (text : List Char) : List Char :=
  stripPy (((headBeforeDash text).filter
    (fun c => isAsciiAlnum c || isPySpace c)).map Char.toLower)

/-- Constant `STOCK_NOISE_KEYWORDS` from the source, in source order. -/
def STOCK_NOISE_KEYWORDS : List (List Char) :=
  ["share price".data, "stock price".data, "shares".data, "stocks".data,
   "closing".data, "trading".data,
   "intraday".data, "market cap".data, "m-cap".data, "valuation".data,
   "sensex".data, "nifty".data, "bse".data, "nse".data,
   "bull".data, "bear".data, "rally".data, "plunge".data, "surges".data,
   "jumps".data, "falls".data, "soars".data, "hits".data,
   "52-week".data, "upper circuit".data, "lower circuit".data,
   "investors lose".data, "wealth erodes".data,
   "top loser".data, "top gainer".data, "flat".data, "volatile".data,
   "gains".data, "losses".data, "green".data, "red".data,
   "technical analysis".data, "chart".data, "candlestick".data,
   "moving average".data, "rsi".data, "macd".data,
   "support level".data, "resistance level".data, "breakout".data,
   "breakdown".data, "pivot".data, "volume".data,
   "momentum".data, "trendline".data, "crossover".data, "technicals".data,
   "chart check".data, "golden cross".data,
   "buy rating".data, "sell rating".data, "accumulate".data,
   "hold rating".data, "target price".data,
   "target of".data, "upside".data, "downside".data, "stop loss".data,
   "brokerage view".data, "recommends".data,
   "brokerage radar".data, "analyst calls".data, "market voice".data,
   "stocks to watch".data, "stocks to buy".data, "market live".data,
   "live updates".data, "stock picks".data,
   "trading ideas".data, "morning trade".data, "opening bell".data,
   "closing bell".data, "market wrap".data,
   "pre-market".data, "after-market".data, "ahead of market".data,
   "market prediction".data, "trade setup".data,
   "hot stocks".data, "buzzing stocks".data, "options".data,
   "futures".data, "f&o".data, "derivative".data,
   "call option".data, "put option".data, "bank nifty".data,
   "nifty prediction".data, "multibagger".data,
   "dividend".data, "bonus issue".data, "stock split".data,
   "record date".data, "ex-dividend".data, "demat".data]

/-- The fundamentals terms tested in `is_stock_noise`'s exception branch. -/
def FUNDAMENTALS : List (List Char) :=
  ["profit".data, "result".data, "earnings".data, "revenue".data,
   "quarter".data]

/-- The `bad_context` list of `is_stock_noise`. -/
def BAD_CONTEXT : List (List Char) :=
  ["share".data, "stock".data, "target".data, "buy".data, "sell".data,
   "dividend".data, "split".data, "surges".data, "falls".data,
   "jumps".data]

/-- Function `is_stock_noise` from the source. The Python loop body does not depend
on which noise keyword matched, so the loop with early returns is exactly
this conditional: if some noise keyword occurs in the cleaned title, then
a title with a fundamentals term is noise exactly when it also has a
bad-context term, and a title without a fundamentals term is always noise;
with no matching noise keyword the title is not noise. -/
def is_stock_noise (title : List Char) : Bool :=
  let c := clean_text title
  if STOCK_NOISE_KEYWORDS.any (fun w => containsSub w c) then
    if FUNDAMENTALS.any (fun x => containsSub x c) then
      BAD_CONTEXT.any (fun b => containsSub b c)
    else true
  else false

/-- Constant `CREDIBLE_SOURCES` from the source. -/
def CREDIBLE_SOURCES : List (List Char) :=
  ["Economic Times".data, "The Economic Times".data, "Livemint".data,
   "Mint".data,
   "Business Standard".data, "Moneycontrol".data, "Financial Express".data,
   "CNBC-TV18".data, "CNBC".data, "The Hindu Business Line".data,
   "Bloomberg".data,
   "Reuters".data, "NDTV Profit".data, "Business Today".data, "Inc42".data,
   "Entrackr".data, "VCCircle".data, "Fortune India".data,
   "Forbes India".data, "VCCEdge".data]

/-- Function `is_credible_source` from the source. The feedparser entry's optional
`source` attribute and its optional `title` field are modelled as
`Option (List Char)`: `none` when `hasattr(entry, 'source')` is false (or
the source has no title, in which case the Python code compares against
the empty string and no nonempty credible name matches). -/
def is_credible_source (src : Option (List Char)) : Bool :=
  match src with
  | none => false
  | some s =>
    let source_title := stripPy s
    CREDIBLE_SOURCES.any
      (fun c => containsSub (c.map Char.toLower) (source_title.map Char.toLower))

/-- Python `str.split()` (split on whitespace runs, no empty words). -/
def pyWordsAux : List Char → List Char → List (List Char)
  | [], acc => if acc.isEmpty then [] else [acc.reverse]
  | c :: t, acc =>
    if isPySpace c then
      if acc.isEmpty then pyWordsAux t []
      else acc.reverse :: pyWordsAux t []
    else pyWordsAux t (c :: acc)

def pyWords (l : List Char) : List (List Char) := pyWordsAux l []

/-- Function `get_word_set` from the source: the set of cleaned words longer than
3 characters (a Python `set`, modelled as a `Finset`). -/
def get_word_set (text : List Char) : Finset (List Char) :=
  ((pyWords (clean_text text)).filter (fun w => w.length > 3)).toFinset

/-- Jaccard ratio `|a ∩ b| / |a ∪ b|` over exact rationals. The Python
code compares `len(i)/len(u) > 0.45` in floating point; for the set sizes
representable here the double comparison agrees with the exact rational
comparison against 45/100, and `0.45` itself parses to the same double as
`9/20` divides to, so exact-ratio equality at the threshold is also
faithful. In Lean a division by zero yields 0, matching the guarded
`continue` of the source. -/
def jaccard (a b : Finset (List Char)) : ℚ :=
  ((a ∩ b).card : ℚ) / ((a ∪ b).card : ℚ)

/-- Function `is_duplicate` from the source: flag the new title when its word set
has Jaccard similarity strictly above 0.45 with some already-seen title.
The `if not new_words: return False` early exit and the
`if len(union) == 0: continue` guard are both kept. The comparison
`len(intersection) / len(union) > 0.45` is decided here by the equivalent
integer cross-multiplication `9 * |union| < 20 * |intersection|` (the
theorem for C8 proves this equal to the exact rational comparison of
`jaccard` against 45/100). -/
def is_duplicate (new_title : List Char) (existing_titles : List (List Char)) : Bool :=
  let new_words := get_word_set new_title
  if new_words = ∅ then false
  else existing_titles.any (fun e =>
    let existing_words := get_word_set e
    if (new_words ∪ existing_words).card = 0 then false
    else decide (9 * (new_words ∪ existing_words).card <
                 20 * (new_words ∩ existing_words).card))

/-- Result of `dateutil.parser.parse` on an entry's `published` string,
modelled by its outcome: `parsed t` gives the parsed naive UTC timestamp
in whole seconds, `unparseable` stands for a parse exception. -/
inductive DateParse where
  | unparseable
  | parsed (t : Int)
deriving DecidableEq

/-- Function `is_within_last_48_hours` from the source: `delta = utcnow - pub_date`
and the test `delta.days <= 2`, where Python's `timedelta.days` is the
floor of the elapsed time in whole days; an unparseable date is accepted
(fail-open `except: return True`). `now` is the run's `datetime.utcnow()`
in seconds. -/
def is_within_last_48_hours (p : DateParse) (now : Int) : Bool :=
  match p with
  | .unparseable => true
  | .parsed t => decide ((now - t).fdiv 86400 ≤ 2)

/-- A well-formed feed entry: title, link, the optional source title
(see `is_credible_source`), and the optional `published` field
(`none` when `hasattr(entry, 'published')` is false). -/
structure EntryData where
  title : List Char
  link : List Char
  source : Option (List Char)
  published : Option DateParse
deriving DecidableEq

/-- A raw feed entry: `malformed` stands for an entry whose `title`/`link`
attribute access raises (the exception is caught by the per-query
handler). -/
inductive Entry where
  | malformed
  | ok (e : EntryData)
deriving DecidableEq

/-- Outcome of fetching one query's feed: `err` is a fetch/parse failure
of the whole query (caught, contributes zero items), `entries` is the
parsed entry list (an empty list matches `if not feed.entries: continue`). -/
inductive FeedOutcome where
  | err
  | entries (l : List Entry)
deriving DecidableEq

/-- The date guard of the scan loop:
`hasattr(entry, 'published') and not is_within_last_48_hours(...)`
(`true` means the item is rejected; an absent date is never rejected). -/
def date_check (pub : Option DateParse) (now : Int) : Bool :=
  match pub with
  | some p => !(is_within_last_48_hours p now)
  | none => false

/-- The three accumulators of `analyze_market_news`'s scan:
`all_headlines`, `seen_titles`, `new_hashes_to_save`, in append order. -/
structure ScanState where
  all_headlines : List (List Char)
  seen_titles : List (List Char)
  new_hashes : List (List Char)
deriving DecidableEq

/-- The formatted headline string
`f"Title: {title} | Source: {source_name} | Link: {url}"` with
`source_name = entry.source.get('title', 'News')`. -/
def formatHeadline (e : EntryData) : List Char :=
  "Title: ".data ++ e.title ++ " | Source: ".data ++
    (match e.source with
     | some s => s
     | none => "News".data) ++ " | Link: ".data ++ e.link

/-- The body of the scan loop for one well-formed entry: the five filter
stages in source order (history, date, credible source, stock noise,
intra-batch duplicate), each `continue`-ing on failure; a surviving item
is appended to all three accumulators. `md5` is the URL hash function
`hashlib.md5(url.encode()).hexdigest()`, kept abstract. -/
def process_entry (md5 : List Char → List Char) (now : Int)
    (sent : Finset (List Char)) (st : ScanState) (e : EntryData) : ScanState :=
  let url_hash := md5 e.link
  if url_hash ∈ sent then st
  else if date_check e.published now then st
  else if !(is_credible_source e.source) then st
  else if is_stock_noise e.title then st
  else if is_duplicate e.title st.seen_titles then st
  else ⟨st.all_headlines ++ [formatHeadline e],
        st.seen_titles ++ [e.title],
        st.new_hashes ++ [url_hash]⟩

/-- The scan loop over one query's entries. A `malformed` entry raises out
of the entry loop into the per-query `except`, so the remaining entries of
that query are not processed; the state accumulated so far is kept. -/
def processEntries (md5 : List Char → List Char) (now : Int)
    (sent : Finset (List Char)) (st : ScanState) : List Entry → ScanState
  | [] => st
  | .malformed :: _ => st
  | .ok e :: rest => processEntries md5 now sent (process_entry md5 now sent st e) rest

/-- One query: a fetch failure contributes nothing, otherwise the entry
loop runs. -/
def processFeed (md5 : List Char → List Char) (now : Int)
    (sent : Finset (List Char)) (st : ScanState) : FeedOutcome → ScanState
  | .err => st
  | .entries l => processEntries md5 now sent st l

/-- The whole fetch-and-filter phase over the run's query list. -/
def scanFeeds (md5 : List Char → List Char) (now : Int)
    (sent : Finset (List Char)) (st : ScanState)
    (feeds : List FeedOutcome) : ScanState :=
  feeds.foldl (fun s f => processFeed md5 now sent s f) st

/-- The JSON body of a 200 response from the generation API, by whether
the `candidates[0].content.parts[0].text` path exists: `good t` when the
text payload is `t`, `malformed` when extraction raises
`KeyError`/`IndexError` (or the dict is falsy). -/
inductive GeminiJson where
  | good (t : List Char)
  | malformed
deriving DecidableEq

/-- Outcome of one `requests.post` attempt: an HTTP status with a body, or
a raised exception (transport failure or undecodable body). -/
inductive ApiOutcome where
  | status (code : Nat) (body : GeminiJson)
  | exn
deriving DecidableEq

/-- Observable result of `call_gemini_with_retry` for one candidate:
the returned JSON (`none` for Python `None`), the number of HTTP requests
issued, and the total seconds spent in `time.sleep(5)` backoffs. -/
structure CallStats where
  result : Option GeminiJson
  requests : Nat
  wait : Nat
deriving DecidableEq

/-- The retry loop of `call_gemini_with_retry`: `resp` gives the outcome
of each attempt (attempt 0 first), `fuel` is the remaining numbers of the
`for attempt in range(retries)` loop. A 200 returns the JSON, a 503
sleeps 5 seconds and retries, any other status or an exception returns
`None`; an exhausted loop returns `None`. -/
def gemini_go (resp : Nat → ApiOutcome) : Nat → CallStats
  | 0 => ⟨none, 0, 0⟩
  | fuel + 1 =>
    match resp 0 with
    | .exn => ⟨none, 1, 0⟩
    | .status c j =>
      if c = 200 then ⟨some j, 1, 0⟩
      else if c = 503 then
        let s := gemini_go (fun n => resp (n + 1)) fuel
        ⟨s.result, s.requests + 1, s.wait + 5⟩
      else ⟨none, 1, 0⟩

/-- Function `call_gemini_with_retry` with its default budget `retries=3`. -/
def call_gemini_with_retry (resp : Nat → ApiOutcome) : CallStats :=
  gemini_go resp 3

/-- Python `str.replace(pat, repl)` for a nonempty `pat` (both patterns
replaced by the source are nonempty): replace non-overlapping occurrences
left to right. The fuel argument equals the remaining string length, and
each step consumes at least one character, so the fuel never runs out. -/
def replaceAllAux (pat repl : List Char) : Nat → List Char → List Char
  | 0, s => s
  | fuel + 1, s =>
    match s with
    | [] => []
    | c :: t =>
      if !pat.isEmpty && startsWith pat (c :: t) then
        repl ++ replaceAllAux pat repl fuel ((c :: t).drop pat.length)
      else c :: replaceAllAux pat repl fuel t

def replaceAll (pat repl s : List Char) : List Char :=
  replaceAllAux pat repl s.length s

/-- The post-processing of a successful payload:
`text_output.replace("```html", "").replace("```", "")`. -/
def postprocess (t : List Char) : List Char :=
  replaceAll ("```".data) [] (replaceAll ("```html".data) [] t)

/-- Constant `MODELS` from the source, in priority order. -/
def MODELS : List (List Char) :=
  ["gemini-2.5-flash".data, "gemini-2.5-flash-lite".data,
   "gemini-2.0-flash".data, "gemini-1.5-flash".data,
   "gemini-1.5-flash-8b".data, "gemini-1.5-pro".data]

/-- The `for model in MODELS` fallback loop, instrumented with the
per-candidate `CallStats` trace (one entry per candidate actually tried):
a `None` result or a malformed 200 JSON advances to the next candidate;
the first extractable payload is post-processed and used, and the loop
breaks. -/
def tryModelsTrace : List (Nat → ApiOutcome) → Option (List Char) × List CallStats
  | [] => (none, [])
  | r :: rest =>
    let s := call_gemini_with_retry r
    match s.result with
    | some (GeminiJson.good t) => (some (postprocess t), [s])
    | _ =>
      let p := tryModelsTrace rest
      (p.1, s :: p.2)

/-- The fallback loop's returned text, `none` when every candidate fails. -/
def tryModels (l : List (Nat → ApiOutcome)) : Option (List Char) :=
  (tryModelsTrace l).1

/-- The run's environment: the loaded history (`load_history()`), the
resolved feed of each generated query, the current UTC time in seconds,
whether `API_KEY` is set, the generation API's outcome for each model name
and attempt number, and whether the email delivery would succeed (the
email secrets are present, SMTP accepts the message). -/
structure Env where
  sent : Finset (List Char)
  feeds : List FeedOutcome
  now : Int
  apiKey : Bool
  resp : List Char → Nat → ApiOutcome
  emailWorks : Bool

/-- The externally observable outcome of one run of
`analyze_market_news`: the text handed to `send_email` (`none` when the
sink is never invoked), whether the delivery itself succeeded, the list
passed to `save_history` (`none` when history is never written), and the
truncated `final_headlines` list. -/
structure RunTrace where
  emailBody : Option (List Char)
  emailDelivered : Bool
  saved : Option (List (List Char))
  finalHeadlines : List (List Char)
deriving DecidableEq

/-- Function `analyze_market_news` from the source: scan and filter all feeds,
truncate to the top 50 headlines, return early when nothing was found or
the API key is missing, otherwise try the models in order; on the first
usable payload the email is sent (`send_email` swallows every delivery
error and returns normally) and `save_history(new_hashes_to_save)` is
called with the full accumulated hash list. -/
def analyze_market_news (md5 : List Char → List Char) (env : Env) : RunTrace :=
  let st := scanFeeds md5 env.now env.sent ⟨[], [], []⟩ env.feeds
  let final := st.all_headlines.take 50
  if final = [] then ⟨none, false, none, final⟩
  else if env.apiKey = false then ⟨none, false, none, final⟩
  else
    match tryModels (MODELS.map env.resp) with
    | none => ⟨none, false, none, final⟩
    | some t => ⟨some t, env.emailWorks, some st.new_hashes, final⟩

/-- Two-digit decimal rendering of `i` (for building families of distinct
short titles and links in concrete runs). -/
def tChar (i : Nat) : List Char :=
  [Char.ofNat (48 + i / 10), Char.ofNat (48 + i % 10)]

/-- The `i`-th entry of a family of mutually independent well-formed
entries: distinct three-character titles (whose word sets are empty, so
the similarity stage never fires), distinct links, a credible source and
no published date. -/
def mkEntry (i : Nat) : Entry :=
  Entry.ok ⟨['a'] ++ tChar i, ['l'] ++ tChar i, some ("Reuters".data), none⟩

/-- A run environment in which 51 items survive every filter stage and
generation succeeds on the first candidate. -/
def envC1 : Env :=
  ⟨∅, [FeedOutcome.entries ((List.range 51).map mkEntry)], 0, true,
   fun _ _ => ApiOutcome.status 200 (GeminiJson.good ("ok".data)), true⟩

/-- A run environment with one qualifying item and a succeeding first
generation candidate, but in which the email delivery fails. -/
def envC2 : Env :=
  ⟨∅,
   [FeedOutcome.entries
     [Entry.ok ⟨"Shriram unit funding deal".data, "L9".data,
                some ("Mint".data), none⟩]],
   0, true,
   fun _ _ => ApiOutcome.status 200 (GeminiJson.good ("digest".data)), false⟩

/-- A run environment with no feeds at all. -/
def envC3 : Env :=
  ⟨∅, [], 0, true, fun _ _ => ApiOutcome.exn, true⟩

/-- First query, a qualifying entry before a malformed one. -/
def e9a : EntryData :=
  ⟨"Muthoot expands branch network".data, "L1".data, some ("Mint".data), none⟩

/-- First query, a qualifying entry after the malformed one. -/
def e9b : EntryData :=
  ⟨"Chola posts record disbursement".data, "L2".data, some ("Mint".data), none⟩

/-- Second query, a qualifying entry. -/
def e9c : EntryData :=
  ⟨"IIFL raises fresh capital".data, "L3".data, some ("Mint".data), none⟩

/-- Two queries: the first has a structurally malformed entry between two
well-formed qualifying entries, the second has one qualifying entry. -/
def feeds9 : List FeedOutcome :=
  [FeedOutcome.entries [Entry.ok e9a, Entry.malformed, Entry.ok e9b],
   FeedOutcome.entries [Entry.ok e9c]]

/-- Candidate A of the C4 scenario: always quota-exceeded (429). -/
def respA : Nat → ApiOutcome := fun _ => ApiOutcome.status 429 GeminiJson.malformed

/-- Candidate B of the C4 scenario: two 503s, then a usable 200. -/
def respB : Nat → ApiOutcome := fun n =>
  match n with
  | 0 => ApiOutcome.status 503 GeminiJson.malformed
  | 1 => ApiOutcome.status 503 GeminiJson.malformed
  | _ => ApiOutcome.status 200 (GeminiJson.good ("ok".data))

/-- Candidate C of the C4 scenario: transport failure. -/
def respC : Nat → ApiOutcome := fun _ => ApiOutcome.exn

theorem startsWith_iff (p l : List Char) :
    startsWith p l = true ↔ ∃ s, l = p ++ s := by
  induction p generalizing l with
  | nil => simp [startsWith]
  | cons a as ih =>
    cases l with
    | nil => simp [startsWith]
    | cons b bs =>
      simp only [startsWith, Bool.and_eq_true, beq_iff_eq, ih]
      constructor
      · rintro ⟨rfl, s, rfl⟩; exact ⟨s, rfl⟩
      · rintro ⟨s, h⟩
        rw [List.cons_append] at h
        cases h
        exact ⟨rfl, s, rfl⟩

theorem containsSub_iff (p l : List Char) :
    containsSub p l = true ↔ ∃ u v, l = u ++ p ++ v := by
  induction l with
  | nil =>
    simp only [containsSub, List.isEmpty_iff]
    constructor
    · rintro rfl; exact ⟨[], [], rfl⟩
    · rintro ⟨u, v, h⟩
      rcases List.append_eq_nil.mp h.symm with ⟨h1, -⟩
      exact (List.append_eq_nil.mp h1).2
  | cons c t ih =>
    simp only [containsSub, Bool.or_eq_true, startsWith_iff, ih]
    constructor
    · rintro (⟨s, h⟩ | ⟨u, v, rfl⟩)
      · exact ⟨[], s, by simpa using h⟩
      · exact ⟨c :: u, v, rfl⟩
    · rintro ⟨u, v, h⟩
      cases u with
      | nil => exact Or.inl ⟨v, by simpa using h⟩
      | cons x xs =>
        rw [List.cons_append, List.cons_append] at h
        cases h
        exact Or.inr ⟨xs, v, rfl⟩

theorem containsSub_of_append_left {p q l : List Char}
    (h : containsSub (p ++ q) l = true) : containsSub p l = true := by
  rcases (containsSub_iff _ _).mp h with ⟨u, v, rfl⟩
  exact (containsSub_iff _ _).mpr ⟨u, q ++ v, by simp⟩

/-- C8: `is_duplicate` flags a new title exactly when the Jaccard
similarity of its word set with some previously accepted title's word set
strictly exceeds 0.45; in particular a pair at or below 0.45 is never
flagged. -/
theorem jaccard_gt_iff (a b : Finset (List Char)) (h : (a ∪ b).card ≠ 0) :
    (45 : ℚ) / 100 < jaccard a b ↔
      9 * (a ∪ b).card < 20 * (a ∩ b).card := by
  have hu : (0 : ℚ) < ((a ∪ b).card : ℚ) :=
    Nat.cast_pos.mpr (Nat.pos_of_ne_zero h)
  rw [jaccard, div_lt_div_iff₀ (by norm_num) hu]
  constructor
  · intro hlt
    have hn : 45 * (a ∪ b).card < (a ∩ b).card * 100 := by exact_mod_cast hlt
    omega
  · intro hlt
    have hn : 45 * (a ∪ b).card < (a ∩ b).card * 100 := by omega
    exact_mod_cast hn

theorem c8_duplicate_iff_jaccard (t : List Char) (existing : List (List Char)) :
    is_duplicate t existing = true ↔
      ∃ e ∈ existing,
        jaccard (get_word_set t) (get_word_set e) > (45 : ℚ) / 100 := by
  simp only [is_duplicate]
  split_ifs with h
  · constructor
    · intro hf; cases hf
    · rintro ⟨e, -, hj⟩
      rw [h] at hj
      simp only [jaccard, Finset.empty_inter, Finset.card_empty,
        Nat.cast_zero, zero_div, gt_iff_lt] at hj
      norm_num at hj
  · rw [List.any_eq_true]
    refine exists_congr fun e => and_congr_right fun _ => ?_
    have hc : ¬ ((get_word_set t ∪ get_word_set e).card = 0) := fun hc =>
      h (Finset.union_eq_empty.mp (Finset.card_eq_zero.mp hc)).1
    rw [if_neg hc, decide_eq_true_eq, gt_iff_lt, jaccard_gt_iff _ _ hc]

/-- C10: a title whose normalized word set is empty is never flagged as a
duplicate, and whenever the word set is nonempty the union whose
cardinality the Jaccard ratio divides by is nonzero, so the ratio never
divides by zero. -/
theorem c10_empty_word_set_never_duplicate (t : List Char)
    (existing : List (List Char)) :
    (get_word_set t = ∅ → is_duplicate t existing = false)
  ∧ (∀ u : List Char, get_word_set t ≠ ∅ →
      (get_word_set t ∪ get_word_set u).card ≠ 0) := by
  constructor
  · intro h
    simp [is_duplicate, h]
  · intro u h hc
    exact h (Finset.union_eq_empty.mp (Finset.card_eq_zero.mp hc)).1

theorem c10_witness :
    is_duplicate ("RBI up".data) ["NBFC profit rises in the quarter".data] = false :=
  (c10_empty_word_set_never_duplicate ("RBI up".data)
    ["NBFC profit rises in the quarter".data]).1 (by decide)

theorem process_entry_not_sent (md5 : List Char → List Char) (now : Int)
    (sent : Finset (List Char)) (st : ScanState) (e : EntryData)
    (inv : ∀ h ∈ st.new_hashes, h ∉ sent) :
    ∀ h ∈ (process_entry md5 now sent st e).new_hashes, h ∉ sent := by
  intro h hmem
  simp only [process_entry] at hmem
  split_ifs at hmem with h1 h2 h3 h4 h5
  · exact inv h hmem
  · exact inv h hmem
  · exact inv h hmem
  · exact inv h hmem
  · exact inv h hmem
  · rcases List.mem_append.mp hmem with hm | hm
    · exact inv h hm
    · rw [List.mem_singleton.mp hm]
      exact h1

theorem processEntries_not_sent (md5 : List Char → List Char) (now : Int)
    (sent : Finset (List Char)) :
    ∀ (l : List Entry) (st : ScanState),
      (∀ h ∈ st.new_hashes, h ∉ sent) →
      ∀ h ∈ (processEntries md5 now sent st l).new_hashes, h ∉ sent := by
  intro l
  induction l with
  | nil => intro st inv; exact inv
  | cons hd tl ih =>
    intro st inv
    cases hd with
    | malformed => exact inv
    | ok e => exact ih _ (process_entry_not_sent md5 now sent st e inv)

theorem scanFeeds_not_sent (md5 : List Char → List Char) (now : Int)
    (sent : Finset (List Char)) :
    ∀ (feeds : List FeedOutcome) (st : ScanState),
      (∀ h ∈ st.new_hashes, h ∉ sent) →
      ∀ h ∈ (scanFeeds md5 now sent st feeds).new_hashes, h ∉ sent := by
  intro feeds
  induction feeds with
  | nil => intro st inv; exact inv
  | cons f fs ih =>
    intro st inv
    cases f with
    | err => exact ih _ inv
    | entries l => exact ih _ (processEntries_not_sent md5 now sent l st inv)

/-- C5: the history check runs first and short-circuits the chain — an
entry whose link-hash is in the loaded history leaves the scan state
unchanged, whatever its date, source or title; consequently every hash a
run queues for persistence (and hence every item in the run's output) is
one that was not in the loaded history. -/
theorem c5_history_short_circuits (md5 : List Char → List Char) (now : Int)
    (sent : Finset (List Char)) :
    (∀ (st : ScanState) (e : EntryData), md5 e.link ∈ sent →
        process_entry md5 now sent st e = st)
  ∧ (∀ (feeds : List FeedOutcome) (h : List Char),
        h ∈ (scanFeeds md5 now sent ⟨[], [], []⟩ feeds).new_hashes →
        h ∉ sent) := by
  constructor
  · intro st e hmem
    simp [process_entry, hmem]
  · intro feeds h hmem
    exact scanFeeds_not_sent md5 now sent feeds ⟨[], [], []⟩ (by simp) h hmem

theorem c5_witness :
    process_entry id 0 ({"x".data} : Finset (List Char)) ⟨[], [], []⟩
      ⟨"Big NBFC deal".data, "x".data, some ("Mint".data), none⟩ = ⟨[], [], []⟩ :=
  (c5_history_short_circuits id 0 ({"x".data} : Finset (List Char))).1
    ⟨[], [], []⟩ ⟨"Big NBFC deal".data, "x".data, some ("Mint".data), none⟩
    (by decide)

/-- C9 (amended): a structurally malformed entry aborts the remainder of
its own query's entry list (entries accepted before it are kept, entries
after it are never evaluated), a failed query contributes zero items, and
the scan continues with the remaining queries — the run is not aborted. -/
theorem c9_malformed_entry_aborts_query (md5 : List Char → List Char)
    (now : Int) (sent : Finset (List Char)) :
    (∀ (st : ScanState) (es rest : List Entry),
        processEntries md5 now sent st (es ++ Entry.malformed :: rest) =
          processEntries md5 now sent st es)
  ∧ (∀ st : ScanState, processFeed md5 now sent st FeedOutcome.err = st)
  ∧ (∀ (st : ScanState) (f : FeedOutcome) (fs : List FeedOutcome),
        scanFeeds md5 now sent st (f :: fs) =
          scanFeeds md5 now sent (processFeed md5 now sent st f) fs) := by
  refine ⟨?_, fun st => rfl, fun st f fs => rfl⟩
  intro st es rest
  induction es generalizing st with
  | nil => rfl
  | cons hd tl ih =>
    cases hd with
    | malformed => rfl
    | ok e => exact ih (process_entry md5 now sent st e)

/-- C9 counterexample: in the first query the entry after the malformed
one (`e9b`) is lost from the output even though it passes every filter
when evaluated on its own, while the entry before the malformed one and
the second query's entry survive. -/
theorem c9_counterexample :
    (scanFeeds id 0 (∅ : Finset (List Char)) ⟨[], [], []⟩ feeds9).all_headlines =
        [formatHeadline e9a, formatHeadline e9c]
  ∧ formatHeadline e9b ∉
      (scanFeeds id 0 (∅ : Finset (List Char)) ⟨[], [], []⟩ feeds9).all_headlines
  ∧ (processEntries id 0 (∅ : Finset (List Char)) ⟨[], [], []⟩
        [Entry.ok e9b]).all_headlines = [formatHeadline e9b] := by decide

/-- C6 (amended): the two-tier noise rule on the cleaned title — a
cleaned title containing "share price" is always rejected; a cleaned
title containing "profit" and "quarter" but no bad-context term is
accepted; and a cleaned title containing both "profit" and "share" is
rejected provided some noise keyword occurs in it (with no noise keyword
the filter never fires, so such a title is accepted — see the
counterexample). -/
theorem c6_noise_two_tier (title : List Char) :
    (containsSub ("share price".data) (clean_text title) = true →
        is_stock_noise title = true)
  ∧ (containsSub ("profit".data) (clean_text title) = true →
     containsSub ("quarter".data) (clean_text title) = true →
     (∀ b ∈ BAD_CONTEXT, containsSub b (clean_text title) = false) →
        is_stock_noise title = false)
  ∧ (containsSub ("profit".data) (clean_text title) = true →
     containsSub ("share".data) (clean_text title) = true →
     (∃ w ∈ STOCK_NOISE_KEYWORDS, containsSub w (clean_text title) = true) →
        is_stock_noise title = true) := by
  refine ⟨?_, ?_, ?_⟩
  · intro hsp
    have hshare : containsSub ("share".data) (clean_text title) = true := by
      have hsplit : ("share price".data : List Char) =
          ("share".data : List Char) ++ (" price".data : List Char) := by decide
      exact containsSub_of_append_left (hsplit ▸ hsp)
    have hkw : STOCK_NOISE_KEYWORDS.any
        (fun w => containsSub w (clean_text title)) = true :=
      List.any_eq_true.mpr ⟨("share price".data), List.mem_cons_self _ _, hsp⟩
    simp only [is_stock_noise, hkw, if_true]
    by_cases hf : FUNDAMENTALS.any
        (fun x => containsSub x (clean_text title)) = true
    · simp only [hf, if_true]
      exact List.any_eq_true.mpr ⟨("share".data), List.mem_cons_self _ _, hshare⟩
    · simp only [Bool.not_eq_true] at hf
      simp [hf]
  · intro hp _hq hbad
    simp only [is_stock_noise]
    by_cases hkw : STOCK_NOISE_KEYWORDS.any
        (fun w => containsSub w (clean_text title)) = true
    · have hf : FUNDAMENTALS.any
          (fun x => containsSub x (clean_text title)) = true :=
        List.any_eq_true.mpr ⟨("profit".data), List.mem_cons_self _ _, hp⟩
      simp only [hkw, hf, if_true]
      rw [List.any_eq_false]
      intro b hb
      simp [hbad b hb]
    · simp only [Bool.not_eq_true] at hkw
      simp [hkw]
  · rintro hp hsh ⟨w, hw, hcw⟩
    have hkw : STOCK_NOISE_KEYWORDS.any
        (fun x => containsSub x (clean_text title)) = true :=
      List.any_eq_true.mpr ⟨w, hw, hcw⟩
    have hf : FUNDAMENTALS.any
        (fun x => containsSub x (clean_text title)) = true :=
      List.any_eq_true.mpr ⟨("profit".data), List.mem_cons_self _ _, hp⟩
    simp only [is_stock_noise, hkw, hf, if_true]
    exact List.any_eq_true.mpr ⟨("share".data), List.mem_cons_self _ _, hsh⟩

theorem c6_witness : is_stock_noise ("Bajaj Finance share price today".data) = true :=
  (c6_noise_two_tier ("Bajaj Finance share price today".data)).1 (by decide)

/-- C6 counterexample: "Muthoot profit share grows" contains both
"profit" and "share" (already in cleaned form), yet `is_stock_noise`
accepts it, because no entry of `STOCK_NOISE_KEYWORDS` occurs in it —
"share" alone is not a noise keyword, so the loop never fires. -/
theorem c6_counterexample :
    containsSub ("profit".data) (clean_text ("Muthoot profit share grows".data)) = true
  ∧ containsSub ("share".data) (clean_text ("Muthoot profit share grows".data)) = true
  ∧ is_stock_noise ("Muthoot profit share grows".data) = false := by decide

/-- C7: the code accepts a parseable item that is 60 hours old, although
60 hours exceeds the 48-hour window the function's own name and docstring
promise — `delta.days <= 2` floors the elapsed time to whole days, so
every item younger than 72 hours passes. The unparseable and absent-date
fail-open behaviour is as claimed. -/
theorem c7_failing_eval :
    is_within_last_48_hours (DateParse.parsed 0) 216000 = true
  ∧ (216000 : Int) = 60 * 3600
  ∧ (48 : Int) * 3600 < 216000
  ∧ is_within_last_48_hours DateParse.unparseable 216000 = true
  ∧ date_check none 216000 = false := by decide

/-- C3: when every generation candidate fails (or the scan yields no
headlines at all), the run invokes neither the delivery sink nor the
history store. -/
theorem c3_total_failure_no_commit (md5 : List Char → List Char) (env : Env)
    (h : tryModels (MODELS.map env.resp) = none ∨
         (scanFeeds md5 env.now env.sent ⟨[], [], []⟩ env.feeds).all_headlines = []) :
    (analyze_market_news md5 env).emailBody = none ∧
      (analyze_market_news md5 env).saved = none := by
  simp only [analyze_market_news]
  by_cases hfin :
      (scanFeeds md5 env.now env.sent ⟨[], [], []⟩ env.feeds).all_headlines.take 50 = []
  · rw [if_pos hfin]
    exact ⟨rfl, rfl⟩
  · have hgen : tryModels (MODELS.map env.resp) = none := by
      rcases h with hg | hh
      · exact hg
      · exact absurd (by simp [hh] :
          (scanFeeds md5 env.now env.sent ⟨[], [], []⟩ env.feeds).all_headlines.take 50 = [])
          hfin
    rw [if_neg hfin]
    by_cases hkey : env.apiKey = false
    · rw [if_pos hkey]
      exact ⟨rfl, rfl⟩
    · rw [if_neg hkey, hgen]
      exact ⟨rfl, rfl⟩

theorem c3_witness :
    (analyze_market_news id envC3).emailBody = none ∧
      (analyze_market_news id envC3).saved = none :=
  c3_total_failure_no_commit id envC3 (Or.inr rfl)

set_option maxRecDepth 100000 in
/-- C1 counterexample: in `envC1` 51 items survive every filter stage;
the delivered `final_headlines` list is capped at the first 50, yet
`save_history` receives all 51 hashes — the hash of the 51st item
(link `l50`) is persisted although its item is excluded by the cap. -/
theorem c1_counterexample :
    (analyze_market_news id envC1).saved =
        some ((List.range 51).map (fun i => ['l'] ++ tChar i))
  ∧ (analyze_market_news id envC1).finalHeadlines.length = 50
  ∧ (['l'] ++ tChar 50) ∈ ((List.range 51).map (fun i => ['l'] ++ tChar i))
  ∧ formatHeadline ⟨['a'] ++ tChar 50, ['l'] ++ tChar 50,
        some ("Reuters".data), none⟩ ∉
      (analyze_market_news id envC1).finalHeadlines := by decide

/-- C1 (amended): on a successful run the history store receives exactly
the link-hashes of all items that survived the five filter stages —
including any beyond the 50-item cap — while the delivered output is the
first 50 surviving headlines; the cap truncates only the delivered list,
after accumulation. -/
theorem c1_saved_hashes_are_all_survivors (md5 : List Char → List Char)
    (env : Env) (hs : List (List Char))
    (h : (analyze_market_news md5 env).saved = some hs) :
    hs = (scanFeeds md5 env.now env.sent ⟨[], [], []⟩ env.feeds).new_hashes
  ∧ (analyze_market_news md5 env).finalHeadlines =
      (scanFeeds md5 env.now env.sent ⟨[], [], []⟩ env.feeds).all_headlines.take 50 := by
  simp only [analyze_market_news] at h ⊢
  by_cases hfin :
      (scanFeeds md5 env.now env.sent ⟨[], [], []⟩ env.feeds).all_headlines.take 50 = []
  · rw [if_pos hfin] at h
    exact Option.noConfusion h
  · rw [if_neg hfin] at h ⊢
    by_cases hkey : env.apiKey = false
    · rw [if_pos hkey] at h
      exact Option.noConfusion h
    · rw [if_neg hkey] at h ⊢
      cases hgen : tryModels (MODELS.map env.resp) with
      | none =>
        rw [hgen] at h
        exact Option.noConfusion h
      | some t =>
        rw [hgen] at h
        exact ⟨(Option.some.inj h).symm, rfl⟩

set_option maxRecDepth 100000 in
theorem c1_witness :
    ((List.range 51).map (fun i => ['l'] ++ tChar i)) =
        (scanFeeds id envC1.now envC1.sent ⟨[], [], []⟩ envC1.feeds).new_hashes
  ∧ (analyze_market_news id envC1).finalHeadlines =
      (scanFeeds id envC1.now envC1.sent ⟨[], [], []⟩ envC1.feeds).all_headlines.take 50 :=
  c1_saved_hashes_are_all_survivors id envC1
    ((List.range 51).map (fun i => ['l'] ++ tChar i)) (by decide)

/-- C2 counterexample: in `envC2` generation succeeds but the email
delivery fails, yet `save_history` is still invoked with the run's hash —
the failed run's item is marked as seen. -/
theorem c2_counterexample :
    (analyze_market_news id envC2).emailDelivered = false
  ∧ (analyze_market_news id envC2).emailBody = some ("digest".data)
  ∧ (analyze_market_news id envC2).saved = some [("L9".data)] := by decide

/-- C2 (amended): the history store is committed exactly when the
delivery sink is invoked — that is, whenever some generation candidate
yields a usable payload — and whether the delivery itself succeeds has no
influence on the commit, because `send_email` swallows every delivery
error. -/
theorem c2_commit_independent_of_delivery (md5 : List Char → List Char)
    (env : Env) :
    ((analyze_market_news md5 env).saved = none ↔
        (analyze_market_news md5 env).emailBody = none)
  ∧ ∀ b : Bool,
      (analyze_market_news md5 { env with emailWorks := b }).saved =
        (analyze_market_news md5 env).saved := by
  obtain ⟨sent, feeds, now, key, resp, ew⟩ := env
  simp only [analyze_market_news]
  by_cases hfin :
      (scanFeeds md5 now sent ⟨[], [], []⟩ feeds).all_headlines.take 50 = []
  · simp [hfin]
  · by_cases hkey : key = false
    · simp [hfin, hkey]
    · cases hgen : tryModels (MODELS.map resp) with
      | none => simp [hfin, hkey, hgen]
      | some t => simp [hfin, hkey, hgen]

theorem gemini_go_200 (resp : Nat → ApiOutcome) (j : GeminiJson) (fuel : Nat)
    (h : resp 0 = ApiOutcome.status 200 j) :
    gemini_go resp (fuel + 1) = ⟨some j, 1, 0⟩ := by
  simp [gemini_go, h]

theorem gemini_go_503 (resp : Nat → ApiOutcome) (j : GeminiJson) (fuel : Nat)
    (h : resp 0 = ApiOutcome.status 503 j) :
    gemini_go resp (fuel + 1) =
      ⟨(gemini_go (fun n => resp (n + 1)) fuel).result,
       (gemini_go (fun n => resp (n + 1)) fuel).requests + 1,
       (gemini_go (fun n => resp (n + 1)) fuel).wait + 5⟩ := by
  simp [gemini_go, h]

theorem gemini_go_other (resp : Nat → ApiOutcome) (j : GeminiJson) (c fuel : Nat)
    (h : resp 0 = ApiOutcome.status c j) (h200 : c ≠ 200) (h503 : c ≠ 503) :
    gemini_go resp (fuel + 1) = ⟨none, 1, 0⟩ := by
  simp [gemini_go, h, h200, h503]

theorem gemini_go_exn (resp : Nat → ApiOutcome) (fuel : Nat)
    (h : resp 0 = ApiOutcome.exn) :
    gemini_go resp (fuel + 1) = ⟨none, 1, 0⟩ := by
  simp [gemini_go, h]

theorem tryModelsTrace_cons_skip (r : Nat → ApiOutcome)
    (l : List (Nat → ApiOutcome))
    (h : (call_gemini_with_retry r).result = none ∨
         (call_gemini_with_retry r).result = some GeminiJson.malformed) :
    tryModelsTrace (r :: l) =
      ((tryModelsTrace l).1, call_gemini_with_retry r :: (tryModelsTrace l).2) := by
  simp only [tryModelsTrace]
  rcases h with h | h <;> rw [h]

theorem tryModelsTrace_cons_good (r : Nat → ApiOutcome)
    (l : List (Nat → ApiOutcome)) (t : List Char)
    (h : (call_gemini_with_retry r).result = some (GeminiJson.good t)) :
    tryModelsTrace (r :: l) = (some (postprocess t), [call_gemini_with_retry r]) := by
  simp only [tryModelsTrace]
  rw [h]

/-- C4: the orchestrator's state machine over an ordered candidate list.
First, the spec's scenario: for candidates `[A, B, C]`, if A answers 429
(quota-exceeded) it is abandoned after a single request and B is tried
next; B answering 503 twice and then a usable 200 is retried in place,
issuing 3 requests with two 5-second waits, and B's payload becomes the
sole output while C is never contacted. The remaining conjuncts cover
each transition in general: any non-200/non-503 status and any transport
exception abandon the candidate after one request with no wait; a 200
whose JSON lacks the text payload advances to the next candidate; a
usable 200 stops the loop at once; a 503 with fuel left waits 5 seconds
and retries the same candidate, consuming one attempt; and three
consecutive 503s exhaust the 3-attempt budget (three requests, 15 seconds
of waiting) and abandon the candidate. -/
theorem c4_orchestrator_state_machine :
    (∀ (A B C : Nat → ApiOutcome) (rest : List (Nat → ApiOutcome))
        (jA jB1 jB2 : GeminiJson) (t : List Char),
        A 0 = ApiOutcome.status 429 jA →
        B 0 = ApiOutcome.status 503 jB1 →
        B 1 = ApiOutcome.status 503 jB2 →
        B 2 = ApiOutcome.status 200 (GeminiJson.good t) →
        tryModelsTrace (A :: B :: C :: rest) =
          (some (postprocess t),
           [⟨none, 1, 0⟩, ⟨some (GeminiJson.good t), 3, 10⟩]))
  ∧ (∀ (r : Nat → ApiOutcome) (l : List (Nat → ApiOutcome))
        (j : GeminiJson) (c : Nat),
        r 0 = ApiOutcome.status c j → c ≠ 200 → c ≠ 503 →
        tryModelsTrace (r :: l) =
          ((tryModelsTrace l).1, ⟨none, 1, 0⟩ :: (tryModelsTrace l).2))
  ∧ (∀ (r : Nat → ApiOutcome) (l : List (Nat → ApiOutcome)),
        r 0 = ApiOutcome.exn →
        tryModelsTrace (r :: l) =
          ((tryModelsTrace l).1, ⟨none, 1, 0⟩ :: (tryModelsTrace l).2))
  ∧ (∀ (r : Nat → ApiOutcome) (l : List (Nat → ApiOutcome)),
        r 0 = ApiOutcome.status 200 GeminiJson.malformed →
        tryModelsTrace (r :: l) =
          ((tryModelsTrace l).1,
           ⟨some GeminiJson.malformed, 1, 0⟩ :: (tryModelsTrace l).2))
  ∧ (∀ (r : Nat → ApiOutcome) (l : List (Nat → ApiOutcome)) (t : List Char),
        r 0 = ApiOutcome.status 200 (GeminiJson.good t) →
        tryModelsTrace (r :: l) =
          (some (postprocess t), [⟨some (GeminiJson.good t), 1, 0⟩]))
  ∧ (∀ (r : Nat → ApiOutcome) (j : GeminiJson) (fuel : Nat),
        r 0 = ApiOutcome.status 503 j →
        gemini_go r (fuel + 1) =
          ⟨(gemini_go (fun n => r (n + 1)) fuel).result,
           (gemini_go (fun n => r (n + 1)) fuel).requests + 1,
           (gemini_go (fun n => r (n + 1)) fuel).wait + 5⟩)
  ∧ (∀ (r : Nat → ApiOutcome) (l : List (Nat → ApiOutcome))
        (j1 j2 j3 : GeminiJson),
        r 0 = ApiOutcome.status 503 j1 →
        r 1 = ApiOutcome.status 503 j2 →
        r 2 = ApiOutcome.status 503 j3 →
        tryModelsTrace (r :: l) =
          ((tryModelsTrace l).1, ⟨none, 3, 15⟩ :: (tryModelsTrace l).2)) := by
  have h503chain : ∀ (r : Nat → ApiOutcome) (j1 j2 : GeminiJson),
      r 0 = ApiOutcome.status 503 j1 → r 1 = ApiOutcome.status 503 j2 →
      ∀ s2 : CallStats, gemini_go (fun n => r (n + 1 + 1)) 1 = s2 →
      call_gemini_with_retry r = ⟨s2.result, s2.requests + 2, s2.wait + 10⟩ := by
    intro r j1 j2 h0 h1 s2 hs2
    have e3 : (3 : Nat) = 2 + 1 := rfl
    rw [call_gemini_with_retry, e3, gemini_go_503 r j1 2 h0]
    have h1' : (fun n => r (n + 1)) 0 = ApiOutcome.status 503 j2 := h1
    rw [show (2 : Nat) = 1 + 1 from rfl, gemini_go_503 _ j2 1 h1']
    have hs2' : gemini_go (fun n => (fun n => r (n + 1)) (n + 1)) 1 = s2 := hs2
    rw [hs2']
  refine ⟨?_, ?_, ?_, ?_, ?_, gemini_go_503, ?_⟩
  · intro A B C rest jA jB1 jB2 t hA0 hB0 hB1 hB2
    have hA : call_gemini_with_retry A = ⟨none, 1, 0⟩ := by
      rw [call_gemini_with_retry, show (3 : Nat) = 2 + 1 from rfl]
      exact gemini_go_other A jA 429 2 hA0 (by decide) (by decide)
    have hB2' : (fun n => B (n + 1 + 1)) 0 = ApiOutcome.status 200 (GeminiJson.good t) := hB2
    have hB : call_gemini_with_retry B = ⟨some (GeminiJson.good t), 3, 10⟩ := by
      rw [h503chain B jB1 jB2 hB0 hB1 ⟨some (GeminiJson.good t), 1, 0⟩
        (gemini_go_200 _ _ 0 hB2')]
    rw [tryModelsTrace_cons_skip A (B :: C :: rest) (by rw [hA]; exact Or.inl rfl),
        tryModelsTrace_cons_good B (C :: rest) t (by rw [hB]), hA, hB]
  · intro r l j c h0 h200 h503
    have hr : call_gemini_with_retry r = ⟨none, 1, 0⟩ := by
      rw [call_gemini_with_retry, show (3 : Nat) = 2 + 1 from rfl]
      exact gemini_go_other r j c 2 h0 h200 h503
    rw [tryModelsTrace_cons_skip r l (by rw [hr]; exact Or.inl rfl), hr]
  · intro r l h0
    have hr : call_gemini_with_retry r = ⟨none, 1, 0⟩ := by
      rw [call_gemini_with_retry, show (3 : Nat) = 2 + 1 from rfl]
      exact gemini_go_exn r 2 h0
    rw [tryModelsTrace_cons_skip r l (by rw [hr]; exact Or.inl rfl), hr]
  · intro r l h0
    have hr : call_gemini_with_retry r = ⟨some GeminiJson.malformed, 1, 0⟩ := by
      rw [call_gemini_with_retry, show (3 : Nat) = 2 + 1 from rfl]
      exact gemini_go_200 r GeminiJson.malformed 2 h0
    rw [tryModelsTrace_cons_skip r l (by rw [hr]; exact Or.inr rfl), hr]
  · intro r l t h0
    have hr : call_gemini_with_retry r = ⟨some (GeminiJson.good t), 1, 0⟩ := by
      rw [call_gemini_with_retry, show (3 : Nat) = 2 + 1 from rfl]
      exact gemini_go_200 r (GeminiJson.good t) 2 h0
    rw [tryModelsTrace_cons_good r l t (by rw [hr]), hr]
  · intro r l j1 j2 j3 h0 h1 h2
    have h2' : (fun n => r (n + 1 + 1)) 0 = ApiOutcome.status 503 j3 := h2
    have hr : call_gemini_with_retry r = ⟨none, 3, 15⟩ := by
      rw [h503chain r j1 j2 h0 h1 ⟨none, 1, 5⟩ ?_]
      rw [show (1 : Nat) = 0 + 1 from rfl, gemini_go_503 _ j3 0 h2']
      rfl
    rw [tryModelsTrace_cons_skip r l (by rw [hr]; exact Or.inl rfl), hr]

theorem c4_witness :
    tryModelsTrace [respA, respB, respC] =
      (some (postprocess ("ok".data)),
       [⟨none, 1, 0⟩, ⟨some (GeminiJson.good ("ok".data)), 3, 10⟩]) :=
  c4_orchestrator_state_machine.1 respA respB respC []
    GeminiJson.malformed GeminiJson.malformed GeminiJson.malformed
    ("ok".data) rfl rfl rfl rfl
